import Mathlib

/-!
Verification of `get_intersight_server_sel.py`, a script that collects and
downloads System Event Log (SEL) files from servers managed via the
Intersight API.

The script is embedded shallowly:
* external API calls are modelled by an `Env` of oracles, each returning
  `Except String α` (an `error` models the Python call raising, carrying
  the exception's string form);
* the per-server dictionary is modelled by `ServerRecord` with `Option`
  fields for keys that may be absent;
* Python exceptions that are NOT caught by a `try`/`except` in the source
  are modelled by `Except PyError`;
* console output, API calls, the sleep, folder creation and file opening
  are recorded in an event trace (`List Event`);
* the filesystem is a set of folders plus a map from paths to contents.
-/

/-- One server record, the Python dict accumulated through the pipeline.
`moid` is always present (set at creation in `get_server_list`); the other
keys are added by later stages, so they are `Option`s (`none` = key absent). -/
structure ServerRecord where
  moid : String
  setting_moid : Option String := none
  endpoint_moid : Option String := none
  endpoint_filename : Option String := none
deriving DecidableEq, Repr

/-- An element of `get_compute_physical_summary_list().results`. -/
structure ApiServer where
  moid : String
  management_mode : String
deriving DecidableEq, Repr

/-- An element of `get_compute_server_setting_list(filter=...).results`. -/
structure SettingResult where
  moid : String
deriving DecidableEq, Repr

/-- An element of `get_equipment_end_point_log_list(filter=...).results`. -/
structure EndpointLogResult where
  moid : String
  file_name : String
deriving DecidableEq, Repr

/-- The external world: each field models one external call.
`Except.error e` models the call raising an exception whose string form
is `e`. Oracles for per-server calls are keyed by the argument the code
passes (the server moid for the filtered list calls, the setting moid for
the update, the endpoint-log moid for the raw HTTP download). -/
structure Env where
  physicalSummaryList : Except String (List ApiServer)
  serverSettingList : String → Except String (List SettingResult)
  updateServerSetting : String → Except String Unit
  endpointLogList : String → Except String (List EndpointLogResult)
  httpGet : String → Except String (List Nat)

/-- A Python exception that escapes every `try`/`except` of the script. -/
inductive PyError where
  /-- `server[key]` on a dict that lacks `key`. -/
  | keyError (key : String)
  /-- `for server in None:` — iterating the `None` that `get_server_list`
  returns after catching an exception. -/
  | noneNotIterable
deriving DecidableEq, Repr

/-- Observable events of a run, in order. -/
inductive Event where
  | printLine (msg : String)
  | apiListServers
  | apiGetServerSettingList (serverMoid : String)
  | apiUpdateServerSetting (settingMoid : String)
  | apiGetEndpointLogList (serverMoid : String)
  | sleep (seconds : Nat)
  | httpDownload (endpointMoid : String)
  | mkdir (path : String)
  | openWrite (path : String)
deriving DecidableEq, Repr

/-- The local filesystem: folders that exist, and file contents by path. -/
structure FS where
  folders : List String
  files : String → Option String

/-- `os.path.join` as used by the script (absolute `cwd`, simple names). -/
def joinPath (a b : String) : String := a ++ "/" ++ b

/-- `os.makedirs(path)`: raises `FileExistsError` when the folder already
exists, otherwise creates it. -/
def makedirs (fs : FS) (path : String) : Except String FS :=
  if fs.folders.contains path then
    .error ("FileExistsError: " ++ path)
  else
    .ok { fs with folders := path :: fs.folders }

/-- `open(path, "w")`: creates the file, or truncates it to empty. -/
def openWriteTruncate (fs : FS) (path : String) : FS :=
  { fs with files := fun p => if p = path then some "" else fs.files p }

/-- `file.write(contents)` on a file opened for writing. -/
def writeFile (fs : FS) (path contents : String) : FS :=
  { fs with files := fun p => if p = path then some contents else fs.files p }

/-- Is `b` a UTF-8 continuation byte (`0x80 ≤ b < 0xC0`)? -/
def isCont (b : Nat) : Bool := 0x80 ≤ b && b < 0xC0

/-- Strict UTF-8 decoding of a byte list into characters, rejecting
continuation bytes in lead position, overlong encodings, surrogates and
code points above `0x10FFFF` — the behaviour of Python's
`bytes.decode("utf-8")`. `none` models `UnicodeDecodeError`. -/
def utf8Chars : List Nat → Option (List Char)
  | [] => some []
  | b :: rest =>
    if b < 0x80 then
      (utf8Chars rest).map (fun cs => Char.ofNat b :: cs)
    else if b < 0xC2 then
      none
    else if b < 0xE0 then
      match rest with
      | b1 :: rest2 =>
        if isCont b1 then
          (utf8Chars rest2).map (fun cs =>
            Char.ofNat ((b - 0xC0) * 0x40 + (b1 - 0x80)) :: cs)
        else none
      | [] => none
    else if b < 0xF0 then
      match rest with
      | b1 :: b2 :: rest3 =>
        if isCont b1 && isCont b2
            && (b != 0xE0 || 0xA0 ≤ b1)
            && (b != 0xED || b1 < 0xA0) then
          (utf8Chars rest3).map (fun cs =>
            Char.ofNat ((b - 0xE0) * 0x1000 + (b1 - 0x80) * 0x40 + (b2 - 0x80)) :: cs)
        else none
      | _ => none
    else if b < 0xF5 then
      match rest with
      | b1 :: b2 :: b3 :: rest4 =>
        if isCont b1 && isCont b2 && isCont b3
            && (b != 0xF0 || 0x90 ≤ b1)
            && (b != 0xF4 || b1 < 0x90) then
          (utf8Chars rest4).map (fun cs =>
            Char.ofNat ((b - 0xF0) * 0x40000 + (b1 - 0x80) * 0x1000
              + (b2 - 0x80) * 0x40 + (b3 - 0x80)) :: cs)
        else none
      | _ => none
    else none

/-- `response.content.decode("utf-8")` (`none` = `UnicodeDecodeError`). -/
def utf8Decode (bytes : List Nat) : Option String :=
  (utf8Chars bytes).map (fun cs => String.mk cs)

/-- `get_server_list()`: lists all servers, keeps those whose management
mode is not in `["UCSM"]`, returning one record per kept server holding
only its moid. On an exception, prints it and returns `None`
(modelled `none`). Returns the trace and the Python return value. -/
def get_server_list (env : Env) : List Event × Option (List ServerRecord) :=
  match env.physicalSummaryList with
  | .ok servers_list_from_api =>
    ([Event.apiListServers],
     some ((servers_list_from_api.filter
        (fun s => !(["UCSM"].contains s.management_mode))).map
          (fun s => { moid := s.moid })))
  | .error e =>
    ([Event.apiListServers, Event.printLine e], none)

/-- `get_server_settings(server)`: queries the setting list filtered by the
server's moid and stores the first result's moid under `setting_moid`.
Any exception (including the `IndexError` from `results[0]` on an empty
list) is caught and printed; the record is then left unchanged. -/
def get_server_settings (env : Env) (server : ServerRecord) :
    ServerRecord × List Event :=
  let ev := Event.apiGetServerSettingList server.moid
  match env.serverSettingList server.moid with
  | .ok (r :: _) =>
    ({ server with setting_moid := some r.moid }, [ev])
  | .ok [] =>
    (server,
     [ev, Event.printLine ("Impossible to get server settings for "
        ++ server.moid ++ " : list index out of range")])
  | .error e =>
    (server,
     [ev, Event.printLine ("Impossible to get server settings for "
        ++ server.moid ++ " : " ++ e)])

/-- `set_collect_sel(server)`: reads `server["setting_moid"]` OUTSIDE the
`try` block (line 103 of the source), so a record lacking that key raises
an uncaught `KeyError`. Otherwise issues the update; an exception from the
API call itself is caught and printed. -/
def set_collect_sel (env : Env) (server : ServerRecord) :
    Except PyError (List Event) :=
  match server.setting_moid with
  | none => .error (.keyError "setting_moid")
  | some setting_moid =>
    match env.updateServerSetting setting_moid with
    | .ok _ => .ok [Event.apiUpdateServerSetting setting_moid]
    | .error e =>
      .ok [Event.apiUpdateServerSetting setting_moid,
           Event.printLine ("Impossible to set SEL collection for "
             ++ server.moid ++ " : " ++ e)]

/-- `get_endpoint_logs(server)`: queries the endpoint-log list filtered by
the server's moid; stores the first result's moid and file name under
`endpoint_moid` and `endpoint_filename` (both attribute reads precede both
dict stores, so the two keys are set together or not at all). Any
exception is caught and printed. -/
def get_endpoint_logs (env : Env) (server : ServerRecord) :
    ServerRecord × List Event :=
  let ev := Event.apiGetEndpointLogList server.moid
  match env.endpointLogList server.moid with
  | .ok (r :: _) =>
    ({ server with endpoint_moid := some r.moid,
                   endpoint_filename := some r.file_name }, [ev])
  | .ok [] =>
    (server,
     [ev, Event.printLine ("Impossible to get endpoint logs for "
        ++ server.moid ++ ": list index out of range")])
  | .error e =>
    (server,
     [ev, Event.printLine ("Impossible to get endpoint logs for "
        ++ server.moid ++ ": " ++ e)])

/-- The body of the inner `try` of `download_sel` after the folder check:
open (create/truncate) the file, decode the body, and on success write the
decoded text and print the confirmation; on `UnicodeDecodeError` the file
stays behind, already truncated to empty. The caught-and-printed message
is emitted by the caller's `except` branch being inlined here. -/
def saveSelFile (fs : FS) (file_path filename : String) (body : List Nat) :
    FS × List Event :=
  let fs1 := openWriteTruncate fs file_path
  match utf8Decode body with
  | some text =>
    (writeFile fs1 file_path text,
     [Event.openWrite file_path,
      Event.printLine ("File \x27" ++ filename
        ++ "\x27 created in folder \x27SEL_logs\x27.")])
  | none =>
    (fs1,
     [Event.openWrite file_path,
      Event.printLine "Impossible to save SEL file: UnicodeDecodeError"])

/-- Lines 181-183 of the source: `if not os.path.exists(folder_path):
os.makedirs(folder_path); print(...)`. When the folder is absent it is
created (an exception from `makedirs` would escape to the enclosing
`try`, hence the `Except`); when it is present nothing happens. -/
def ensure_folder (fs : FS) (folder_path : String) :
    Except String (FS × List Event) :=
  if fs.folders.contains folder_path then
    .ok (fs, [])
  else
    match makedirs fs folder_path with
    | .ok fs1 =>
      .ok (fs1, [Event.mkdir folder_path,
        Event.printLine "Folder \x27SEL_logs\x27 created."])
    | .error e => .error e

/-- `download_sel(server)`: reads `server["endpoint_moid"]` and
`server["endpoint_filename"]` OUTSIDE any `try` (lines 164-165), so a
missing key raises an uncaught `KeyError`. Then issues a raw signed HTTP
GET against the download host; on an exception prints it. On success,
ensures the `SEL_logs` folder exists under the current working directory
(creating it, with a message, only when absent) and saves the decoded
body under the resolved filename; any exception in the save step is
caught and printed. -/
def download_sel (env : Env) (cwd : String) (fs : FS)
    (server : ServerRecord) : Except PyError (FS × List Event) :=
  match server.endpoint_moid with
  | none => .error (.keyError "endpoint_moid")
  | some endpoint_moid =>
    match server.endpoint_filename with
    | none => .error (.keyError "endpoint_filename")
    | some filename =>
      let dl := Event.httpDownload endpoint_moid
      match env.httpGet endpoint_moid with
      | .error e => .ok (fs, [dl, Event.printLine e])
      | .ok body =>
        let folder_path := joinPath cwd "SEL_logs"
        let file_path := joinPath folder_path filename
        match ensure_folder fs folder_path with
        | .ok (fs1, evF) =>
          let (fs2, evs) := saveSelFile fs1 file_path filename body
          .ok (fs2, dl :: (evF ++ evs))
        | .error e =>
          .ok (fs, [dl,
            Event.printLine ("Impossible to save SEL file: " ++ e)])

/-- The first `for` loop of `main`: per server, resolve settings, trigger
SEL collection, resolve endpoint logs. An uncaught exception (the
`KeyError` of `set_collect_sel`) aborts the loop, keeping the trace so
far. On success returns the mutated records, in order. -/
def phase1Loop (env : Env) :
    List ServerRecord → List Event × Except PyError (List ServerRecord)
  | [] => ([], .ok [])
  | server :: rest =>
    let (s1, ev1) := get_server_settings env server
    match set_collect_sel env s1 with
    | .error e => (ev1, .error e)
    | .ok ev2 =>
      let (s2, ev3) := get_endpoint_logs env s1
      let (evRest, res) := phase1Loop env rest
      (ev1 ++ ev2 ++ ev3 ++ evRest, res.map (fun l => s2 :: l))

/-- The second `for` loop of `main`: per server, when the record has an
`endpoint_moid` key, download its SEL; otherwise skip it. An uncaught
exception aborts the loop. -/
def phase2Loop (env : Env) (cwd : String) :
    FS → List ServerRecord → List Event × FS × Except PyError Unit
  | fs, [] => ([], fs, .ok ())
  | fs, server :: rest =>
    if server.endpoint_moid.isSome then
      match download_sel env cwd fs server with
      | .error e => ([], fs, .error e)
      | .ok (fs1, evs) =>
        let (evRest, fs2, res) := phase2Loop env cwd fs1 rest
        (evs ++ evRest, fs2, res)
    else
      phase2Loop env cwd fs rest

/-- The opening warning printed by `main` (typo reproduced from source). -/
def warningMsg : String :=
  "Warning: This script will only fech SEL files for servers managed by Intersight or in standalone mode."

/-- The message printed before the 5 second sleep. -/
def waitingMsg : String := "Waiting for SEL to be generated..."

/-- The final message of `main`. -/
def finishedMsg : String := "Finished downloading SEL files."

/-- The result of a run: its trace, final filesystem, and `some e` when an
uncaught Python exception aborted the script. -/
structure RunResult where
  trace : List Event
  fs : FS
  outcome : Option PyError

/-- `main()`: print the warning, list the servers, run the trigger phase
over each, print the waiting message and sleep 5 seconds, run the
download phase over each, print the final message. Iterating the `None`
returned by a failed `get_server_list` raises a `TypeError`; an uncaught
exception from either loop aborts the run. -/
def main_run (env : Env) (cwd : String) (fs : FS) : RunResult :=
  let ev0 := [Event.printLine warningMsg]
  let (ev1, servers_moid_list) := get_server_list env
  match servers_moid_list with
  | none =>
    { trace := ev0 ++ ev1, fs := fs, outcome := some .noneNotIterable }
  | some servers =>
    match phase1Loop env servers with
    | (ev2, .error e) =>
      { trace := ev0 ++ ev1 ++ ev2, fs := fs, outcome := some e }
    | (ev2, .ok servers1) =>
      let evMid := [Event.printLine waitingMsg, Event.sleep 5]
      match phase2Loop env cwd fs servers1 with
      | (ev3, fs1, .error e) =>
        { trace := ev0 ++ ev1 ++ ev2 ++ evMid ++ ev3, fs := fs1,
          outcome := some e }
      | (ev3, fs1, .ok _) =>
        { trace := ev0 ++ ev1 ++ ev2 ++ evMid ++ ev3
            ++ [Event.printLine finishedMsg],
          fs := fs1, outcome := none }

/-- `true` exactly for the raw HTTP download event. -/
def Event.isDownload : Event → Bool
  | .httpDownload _ => true
  | _ => false

/-- `true` exactly for the SEL-collection trigger (settings update) event. -/
def Event.isTrigger : Event → Bool
  | .apiUpdateServerSetting _ => true
  | _ => false

/-- `true` exactly for a sleep event. -/
def Event.isSleep : Event → Bool
  | .sleep _ => true
  | _ => false

/-- `true` exactly for a folder-creation event. -/
def Event.isMkdir : Event → Bool
  | .mkdir _ => true
  | _ => false

/-- An empty filesystem: no folders, no files. -/
def fs0 : FS := { folders := [], files := fun _ => none }

/-- The `endpoint_moid` and `endpoint_filename` keys are present together
or absent together in a record. -/
def recOk (r : ServerRecord) : Bool :=
  r.endpoint_moid.isSome == r.endpoint_filename.isSome

/-- Environment for a run over servers `A` and `B` (both non-legacy) in
which the settings query raises for `A` but succeeds for `B`, and every
other call succeeds. -/
def envC1 : Env :=
  { physicalSummaryList := .ok [⟨"A", "Intersight"⟩, ⟨"B", "Intersight"⟩]
    serverSettingList := fun m => if m = "A" then .error "boom" else .ok [⟨"SB"⟩]
    updateServerSetting := fun _ => .ok ()
    endpointLogList := fun _ => .ok [⟨"EB", "selB.txt"⟩]
    httpGet := fun _ => .ok [104, 101, 108, 108, 111] }

/-- An environment whose server-listing call raises. -/
def envC2 : Env :=
  { envC1 with physicalSummaryList := .error "ApiException" }

/-- C1: the spec demands that when settings resolution fails for server A
but succeeds for server B, the downstream stages process B and skip A with
no exception escaping the per-server loop. The code violates this:
`set_collect_sel` reads `server["setting_moid"]` outside its `try`
(line 103), so on `envC1` the run aborts with an uncaught `KeyError` and
B is never triggered nor downloaded. -/
theorem settings_failure_keyerror_aborts_loop :
    (main_run envC1 "/cwd" fs0).outcome
        = some (PyError.keyError "setting_moid") ∧
    Event.apiUpdateServerSetting "SB" ∉ (main_run envC1 "/cwd" fs0).trace ∧
    Event.httpDownload "EB" ∉ (main_run envC1 "/cwd" fs0).trace :=
  ⟨rfl, by decide, by decide⟩

/-- C2: the spec demands that when the server-listing call fails the run
still terminates normally. The code violates this: `get_server_list`
swallows the exception and returns `None`, and `main` iterates that
`None` (line 201), raising an uncaught `TypeError` before the final
message is printed. -/
theorem listing_failure_type_error_aborts_run :
    (main_run envC2 "/cwd" fs0).outcome = some PyError.noneNotIterable ∧
    Event.printLine finishedMsg ∉ (main_run envC2 "/cwd" fs0).trace :=
  ⟨rfl, by decide⟩

/-- C6: the spec says the final completion message is printed no matter
how many servers failed at any stage. The code violates this: on `envC1`
one server fails settings resolution (its error line is printed), the run
then aborts with an uncaught `KeyError`, and the final message is never
printed. -/
theorem final_message_not_printed_on_settings_failure :
    Event.printLine "Impossible to get server settings for A : boom"
        ∈ (main_run envC1 "/cwd" fs0).trace ∧
    (main_run envC1 "/cwd" fs0).outcome ≠ none ∧
    Event.printLine finishedMsg ∉ (main_run envC1 "/cwd" fs0).trace :=
  ⟨by decide, by decide, by decide⟩

/-- An environment whose raw HTTP download returns the single byte `0xFF`,
which is not decodable as UTF-8. -/
def envC10 : Env :=
  { envC1 with httpGet := fun _ => .ok [255] }

/-- A fully resolved record for the download stage. -/
def serverC10 : ServerRecord :=
  { moid := "srv", setting_moid := some "S",
    endpoint_moid := some "X", endpoint_filename := some "sel.txt" }

/-- C10: the save step of `download_sel` is not atomic on error: for a
response body that is not valid UTF-8, `open(file_path, "w")` has already
created (truncated) the file before `.decode("utf-8")` raises, so after
the exception is caught and printed, an empty file named after the
resolved filename remains on disk. -/
theorem download_save_not_atomic_on_decode_error :
    utf8Decode [255] = none ∧
    ∃ r, download_sel envC10 "/cwd" fs0 serverC10 = .ok r ∧
      r.1.files (joinPath (joinPath "/cwd" "SEL_logs") "sel.txt") = some "" ∧
      Event.openWrite (joinPath (joinPath "/cwd" "SEL_logs") "sel.txt") ∈ r.2 ∧
      Event.printLine "Impossible to save SEL file: UnicodeDecodeError" ∈ r.2 :=
  ⟨rfl, _, rfl, rfl, by decide, by decide⟩

/-- C3: for every server list the platform returns, `get_server_list`
yields exactly the servers whose management mode is not the legacy value
`"UCSM"`, one record per kept server carrying only its moid (all other
keys absent). -/
theorem inventory_filters_legacy_servers (env : Env)
    (servers : List ApiServer)
    (h : env.physicalSummaryList = .ok servers) :
    (get_server_list env).2 =
      some ((servers.filter
          (fun s => decide (s.management_mode ≠ "UCSM"))).map
        (fun s => { moid := s.moid, setting_moid := none,
                    endpoint_moid := none, endpoint_filename := none })) ∧
    ∀ r ∈ ((get_server_list env).2).getD [],
      r.setting_moid = none ∧ r.endpoint_moid = none ∧
        r.endpoint_filename = none := by
  have h1 : (get_server_list env).2 =
      some ((servers.filter
          (fun s => decide (s.management_mode ≠ "UCSM"))).map
        (fun s => { moid := s.moid, setting_moid := none,
                    endpoint_moid := none, endpoint_filename := none })) := by
    simp only [get_server_list, h]
    congr 2
    apply List.filter_congr
    intro a _
    by_cases ha : a.management_mode = "UCSM" <;> simp [ha]
  refine ⟨h1, ?_⟩
  rw [h1]
  intro r hr
  simp only [Option.getD_some, List.mem_map] at hr
  obtain ⟨s, _, rfl⟩ := hr
  exact ⟨rfl, rfl, rfl⟩

/-- An environment listing one legacy-managed and one non-legacy server. -/
def envC3 : Env :=
  { envC1 with
    physicalSummaryList := .ok [⟨"L1", "UCSM"⟩, ⟨"N1", "Intersight"⟩] }

/-- Witness for `inventory_filters_legacy_servers`: of one legacy-managed
and one non-legacy server, only the non-legacy one is returned. -/
theorem inventory_filters_legacy_servers_witness :
    (get_server_list envC3).2 =
      some [{ moid := "N1", setting_moid := none, endpoint_moid := none,
              endpoint_filename := none }] := by
  have h := (inventory_filters_legacy_servers envC3
    [⟨"L1", "UCSM"⟩, ⟨"N1", "Intersight"⟩] rfl).1
  exact h.trans (by decide)

/-- C4: when the HTTP download and the save both succeed, `download_sel`
writes a file named exactly after the resolved filename (not after the
log moid) inside the `SEL_logs` folder, whose contents are the response
body decoded as UTF-8, and it touches no other file. -/
theorem download_sel_writes_resolved_filename (env : Env) (cwd : String)
    (fs : FS) (server : ServerRecord) (x f : String) (body : List Nat)
    (text : String)
    (hm : server.endpoint_moid = some x)
    (hf : server.endpoint_filename = some f)
    (hhttp : env.httpGet x = .ok body)
    (hdec : utf8Decode body = some text) :
    ∃ r, download_sel env cwd fs server = .ok r ∧
      r.1.files (joinPath (joinPath cwd "SEL_logs") f) = some text ∧
      ∀ p, p ≠ joinPath (joinPath cwd "SEL_logs") f →
        r.1.files p = fs.files p := by
  simp only [download_sel, hm, hf, hhttp]
  by_cases hc : fs.folders.contains (joinPath cwd "SEL_logs")
  · simp only [ensure_folder, hc, if_true, saveSelFile, hdec]
    refine ⟨_, rfl, ?_, ?_⟩
    · simp [writeFile]
    · intro p hp
      simp [writeFile, openWriteTruncate, hp]
  · simp only [ensure_folder, hc, if_false, makedirs, Bool.false_eq_true,
      saveSelFile, hdec]
    refine ⟨_, rfl, ?_, ?_⟩
    · simp [writeFile]
    · intro p hp
      simp [writeFile, openWriteTruncate, hp]

/-- Environment for the download-stage witness: the raw HTTP call for log
moid `"X"` returns the UTF-8 bytes of `"hello"`. -/
def envC4 : Env :=
  { envC1 with
    httpGet := fun m =>
      if m = "X" then .ok [104, 101, 108, 108, 111] else .error "404" }

/-- A record resolved to log moid `"X"` and filename `"sel.txt"`. -/
def serverC4 : ServerRecord :=
  { moid := "srv", setting_moid := some "S",
    endpoint_moid := some "X", endpoint_filename := some "sel.txt" }

/-- Witness for `download_sel_writes_resolved_filename`: with log moid
`"X"` and filename `"sel.txt"`, the file written is `sel.txt` and holds
`"hello"`. -/
theorem download_sel_writes_resolved_filename_witness :
    ∃ r, download_sel envC4 "/cwd" fs0 serverC4 = .ok r ∧
      r.1.files (joinPath (joinPath "/cwd" "SEL_logs") "sel.txt")
        = some "hello" ∧
      ∀ p, p ≠ joinPath (joinPath "/cwd" "SEL_logs") "sel.txt" →
        r.1.files p = fs0.files p :=
  download_sel_writes_resolved_filename envC4 "/cwd" fs0 serverC4 "X"
    "sel.txt" [104, 101, 108, 108, 111] "hello" rfl rfl rfl (by decide)

/-- C5: the download loop of `main` behaves identically on a server list
and on its restriction to records whose `endpoint_moid` key is present:
records lacking the log identifier are skipped outright and never reach
`download_sel`. -/
theorem download_phase_skips_records_without_endpoint (env : Env)
    (cwd : String) (fs : FS) (servers : List ServerRecord) :
    phase2Loop env cwd fs servers =
      phase2Loop env cwd fs
        (servers.filter (fun s => s.endpoint_moid.isSome)) := by
  induction servers generalizing fs with
  | nil => rfl
  | cons s rest ih =>
    rw [List.filter_cons]
    by_cases h : s.endpoint_moid.isSome
    · simp only [h, if_true]
      simp only [phase2Loop, h, if_true]
      cases hdl : download_sel env cwd fs s with
      | error e => rfl
      | ok r =>
        obtain ⟨fs1, evs⟩ := r
        simp only [ih]
    · simp only [h, if_false, Bool.false_eq_true]
      simp only [phase2Loop, h, if_false, Bool.false_eq_true]
      exact ih fs

/-- The save step never touches the set of folders. -/
lemma saveSelFile_folders (fs : FS) (fp fn : String) (body : List Nat) :
    (saveSelFile fs fp fn body).1.folders = fs.folders := by
  unfold saveSelFile
  cases utf8Decode body <;> simp [writeFile, openWriteTruncate]

lemma isMkdir_printLine (m : String) : (Event.printLine m).isMkdir = false := rfl

lemma isMkdir_httpDownload (m : String) :
    (Event.httpDownload m).isMkdir = false := rfl

lemma isMkdir_openWrite (p : String) : (Event.openWrite p).isMkdir = false := rfl

lemma isMkdir_mkdir (p : String) : (Event.mkdir p).isMkdir = true := rfl

/-- The save step emits no folder-creation event. -/
lemma saveSelFile_no_mkdir (fs : FS) (fp fn : String) (body : List Nat) :
    (saveSelFile fs fp fn body).2.countP Event.isMkdir = 0 := by
  unfold saveSelFile
  cases utf8Decode body <;>
    simp [List.countP_cons, isMkdir_printLine, isMkdir_openWrite]

/-- Folder bookkeeping of one successful `download_sel` call: at most one
`mkdir`; no `mkdir` leaves the folders unchanged; a `mkdir` puts the
`SEL_logs` folder in place; and when the folder already exists nothing is
created and the folders are unchanged. -/
lemma download_sel_mkdir (env : Env) (cwd : String) (fs : FS)
    (server : ServerRecord) (r : FS × List Event)
    (h : download_sel env cwd fs server = .ok r) :
    r.2.countP Event.isMkdir ≤ 1 ∧
    (r.2.countP Event.isMkdir = 0 → r.1.folders = fs.folders) ∧
    (r.2.countP Event.isMkdir ≠ 0 →
      joinPath cwd "SEL_logs" ∈ r.1.folders) ∧
    (joinPath cwd "SEL_logs" ∈ fs.folders →
      r.2.countP Event.isMkdir = 0 ∧ r.1.folders = fs.folders) := by
  cases hm : server.endpoint_moid with
  | none => simp [download_sel, hm] at h
  | some x =>
    cases hf : server.endpoint_filename with
    | none => simp [download_sel, hm, hf] at h
    | some f =>
      cases hh : env.httpGet x with
      | error e =>
        simp only [download_sel, hm, hf, hh] at h
        cases h
        simp [List.countP_cons, isMkdir_printLine, isMkdir_httpDownload]
      | ok body =>
        cases hc : fs.folders.contains (joinPath cwd "SEL_logs") with
        | true =>
          have hcm : joinPath cwd "SEL_logs" ∈ fs.folders := by
            simpa [List.contains, List.elem_iff] using hc
          simp only [download_sel, hm, hf, hh, ensure_folder, hc,
            if_true] at h
          cases h
          simp [List.countP_cons, isMkdir_httpDownload,
            saveSelFile_no_mkdir, saveSelFile_folders]
        | false =>
          have hmem : joinPath cwd "SEL_logs" ∉ fs.folders := by
            intro hx
            have : fs.folders.contains (joinPath cwd "SEL_logs") = true := by
              simp [List.contains, List.elem_iff]
              exact hx
            rw [hc] at this
            exact Bool.false_ne_true this
          simp only [download_sel, hm, hf, hh, ensure_folder, hc,
            Bool.false_eq_true, if_false, makedirs] at h
          cases h
          simp [List.countP_cons, isMkdir_httpDownload, isMkdir_mkdir,
            isMkdir_printLine, saveSelFile_no_mkdir, saveSelFile_folders,
            hmem]

/-- Across the whole download loop, at most one folder creation happens,
and none at all when the output folder already exists. -/
lemma phase2Loop_mkdir_count (env : Env) (cwd : String)
    (servers : List ServerRecord) : ∀ fs : FS,
    (phase2Loop env cwd fs servers).1.countP Event.isMkdir ≤ 1 ∧
    (joinPath cwd "SEL_logs" ∈ fs.folders →
      (phase2Loop env cwd fs servers).1.countP Event.isMkdir = 0) := by
  induction servers with
  | nil => intro fs; simp [phase2Loop]
  | cons s rest ih =>
    intro fs
    by_cases hm : s.endpoint_moid.isSome
    · simp only [phase2Loop, hm, if_true]
      cases hdl : download_sel env cwd fs s with
      | error e => simp
      | ok r =>
        obtain ⟨fs1, evs⟩ := r
        have hd := download_sel_mkdir env cwd fs s (fs1, evs) hdl
        dsimp only at hd
        have ih1 := ih fs1
        dsimp only
        simp only [List.countP_append]
        rcases Nat.eq_zero_or_pos (evs.countP Event.isMkdir) with h0 | hpos
        · have hfolders : fs1.folders = fs.folders := hd.2.1 h0
          constructor
          · have := ih1.1
            omega
          · intro hin
            have hz : (phase2Loop env cwd fs1 rest).1.countP Event.isMkdir
                = 0 := by
              apply ih1.2
              rw [hfolders]
              exact hin
            omega
        · have h1 : evs.countP Event.isMkdir = 1 := by
            have := hd.1
            omega
          have hin1 : joinPath cwd "SEL_logs" ∈ fs1.folders :=
            hd.2.2.1 (by omega)
          have hz := ih1.2 hin1
          constructor
          · omega
          · intro hin
            have := (hd.2.2.2 hin).1
            omega
    · simp only [phase2Loop, hm, if_false, Bool.false_eq_true]
      exact ih fs

/-- C8: across all downloader invocations of one run, the `SEL_logs`
output folder is created at most once — never when it pre-exists — and
the folder-ensuring step is idempotent: on a filesystem that already has
the folder it succeeds, changing nothing and creating nothing, instead of
erroring. -/
theorem sel_folder_created_at_most_once (env : Env) (cwd : String)
    (fs : FS) (servers : List ServerRecord) :
    (phase2Loop env cwd fs servers).1.countP Event.isMkdir ≤ 1 ∧
    (joinPath cwd "SEL_logs" ∈ fs.folders →
      (phase2Loop env cwd fs servers).1.countP Event.isMkdir = 0) ∧
    (∀ fs2 : FS, ∀ p : String, p ∈ fs2.folders →
      ensure_folder fs2 p = .ok (fs2, [])) := by
  refine ⟨(phase2Loop_mkdir_count env cwd servers fs).1,
    (phase2Loop_mkdir_count env cwd servers fs).2, ?_⟩
  intro fs2 p hp
  have hc : fs2.folders.contains p = true := by
    simp [List.contains, List.elem_iff]
    exact hp
  unfold ensure_folder
  rw [if_pos hc]

/-- A filesystem in which the output folder already exists. -/
def fsP : FS :=
  { folders := [joinPath "/cwd" "SEL_logs"], files := fun _ => none }

/-- Witness for `sel_folder_created_at_most_once`: on a filesystem that
already has `SEL_logs`, a run over one fully resolved server creates no
folder. -/
theorem sel_folder_created_at_most_once_witness :
    (phase2Loop envC4 "/cwd" fsP [serverC4]).1.countP Event.isMkdir = 0 :=
  (sel_folder_created_at_most_once envC4 "/cwd" fsP [serverC4]).2.1
    (by decide)

/-- The only uncaught exception of the trigger stage is the `KeyError` on
the missing `setting_moid` key. -/
lemma set_collect_sel_error (env : Env) (s : ServerRecord) (e : PyError)
    (h : set_collect_sel env s = .error e) :
    e = PyError.keyError "setting_moid" := by
  cases hs : s.setting_moid with
  | none =>
    simp only [set_collect_sel, hs] at h
    cases h
    rfl
  | some m =>
    cases hu : env.updateServerSetting m <;>
      simp [set_collect_sel, hs, hu] at h

/-- The settings resolver never touches the endpoint-log fields. -/
lemma get_server_settings_endpoint_fields (env : Env) (s : ServerRecord) :
    ((get_server_settings env s).1).endpoint_moid = s.endpoint_moid ∧
    ((get_server_settings env s).1).endpoint_filename
      = s.endpoint_filename := by
  cases henv : env.serverSettingList s.moid with
  | ok l => cases l <;> simp [get_server_settings, henv]
  | error e => simp [get_server_settings, henv]

/-- The log resolver sets `endpoint_moid` and `endpoint_filename` together
or not at all, so it preserves the two-fields-together invariant. -/
lemma get_endpoint_logs_recOk (env : Env) (s : ServerRecord)
    (h : recOk s = true) : recOk (get_endpoint_logs env s).1 = true := by
  cases henv : env.endpointLogList s.moid with
  | ok l => cases l <;> simp_all [get_endpoint_logs, henv, recOk]
  | error e => simp_all [get_endpoint_logs, henv, recOk]

/-- Records created by the inventory stage carry no endpoint fields, so
they satisfy the two-fields-together invariant. -/
lemma get_server_list_recOk (env : Env) (l : List ServerRecord)
    (h : (get_server_list env).2 = some l) :
    ∀ s ∈ l, recOk s = true := by
  cases hp : env.physicalSummaryList with
  | ok servers =>
    simp only [get_server_list, hp, Option.some_inj] at h
    subst h
    intro s hs
    simp only [List.mem_map] at hs
    obtain ⟨a, _, rfl⟩ := hs
    rfl
  | error e => simp [get_server_list, hp] at h

/-- The trigger phase preserves the two-fields-together invariant on every
record it outputs. -/
lemma phase1Loop_recOk (env : Env) (servers : List ServerRecord)
    (hall : ∀ s ∈ servers, recOk s = true) (out : List ServerRecord)
    (h : (phase1Loop env servers).2 = .ok out) :
    ∀ s ∈ out, recOk s = true := by
  induction servers generalizing out with
  | nil =>
    simp only [phase1Loop] at h
    cases h
    intro s hs
    cases hs
  | cons s rest ih =>
    simp only [phase1Loop] at h
    cases hcs : set_collect_sel env (get_server_settings env s).1 with
    | error e =>
      simp only [hcs] at h
      exact Except.noConfusion h
    | ok ev2 =>
      simp only [hcs] at h
      cases hres : (phase1Loop env rest).2 with
      | error e => simp [hres, Except.map] at h
      | ok out1 =>
        simp only [hres, Except.map, Except.ok.injEq] at h
        subst h
        intro t ht
        rcases List.mem_cons.mp ht with rfl | ht1
        · apply get_endpoint_logs_recOk
          have hp := get_server_settings_endpoint_fields env s
          have hrec := hall s (List.mem_cons_self s rest)
          unfold recOk at hrec ⊢
          rw [hp.1, hp.2]
          exact hrec
        · exact ih (fun u hu => hall u (List.mem_cons_of_mem s hu)) out1
            hres t ht1

/-- The uncaught exception of the trigger phase, when there is one, is
always the `setting_moid` `KeyError`. -/
lemma phase1Loop_error (env : Env) (servers : List ServerRecord)
    (e : PyError) (h : (phase1Loop env servers).2 = .error e) :
    e = PyError.keyError "setting_moid" := by
  induction servers with
  | nil => simp [phase1Loop] at h
  | cons s rest ih =>
    simp only [phase1Loop] at h
    cases hcs : set_collect_sel env (get_server_settings env s).1 with
    | error e1 =>
      simp only [hcs, Except.error.injEq] at h
      subst h
      exact set_collect_sel_error env _ e1 hcs
    | ok ev2 =>
      simp only [hcs] at h
      cases hres : (phase1Loop env rest).2 with
      | error e1 =>
        simp only [hres, Except.map, Except.error.injEq] at h
        subst h
        exact ih hres
      | ok out1 => simp [hres, Except.map] at h

/-- A record with both endpoint fields present never makes `download_sel`
raise: every branch past the two lookups returns normally. -/
lemma download_sel_ok (env : Env) (cwd : String) (fs : FS)
    (s : ServerRecord) (hrec : recOk s = true)
    (hm : s.endpoint_moid.isSome = true) :
    ∃ r, download_sel env cwd fs s = .ok r := by
  obtain ⟨x, hx⟩ := Option.isSome_iff_exists.mp hm
  have heq : s.endpoint_moid.isSome = s.endpoint_filename.isSome := by
    simpa [recOk] using hrec
  have hfs : s.endpoint_filename.isSome = true := by
    rw [← heq]
    exact hm
  obtain ⟨f, hf⟩ := Option.isSome_iff_exists.mp hfs
  simp only [download_sel, hx, hf]
  cases env.httpGet x with
  | error e => exact ⟨_, rfl⟩
  | ok body =>
    dsimp only
    cases ensure_folder fs (joinPath cwd "SEL_logs") with
    | ok p => exact ⟨_, rfl⟩
    | error e => exact ⟨_, rfl⟩

/-- Given the two-fields-together invariant on every record, the download
loop never raises. -/
lemma phase2Loop_ok (env : Env) (cwd : String)
    (servers : List ServerRecord)
    (hall : ∀ s ∈ servers, recOk s = true) :
    ∀ fs, (phase2Loop env cwd fs servers).2.2 = .ok () := by
  induction servers with
  | nil => intro fs; rfl
  | cons s rest ih =>
    intro fs
    by_cases hm : s.endpoint_moid.isSome
    · obtain ⟨r, hdl⟩ := download_sel_ok env cwd fs s
        (hall s (List.mem_cons_self s rest)) hm
      obtain ⟨fs1, evs⟩ := r
      simp only [phase2Loop, hm, if_true, hdl]
      exact ih (fun u hu => hall u (List.mem_cons_of_mem s hu)) fs1
    · simp only [phase2Loop, hm, if_false, Bool.false_eq_true]
      exact ih (fun u hu => hall u (List.mem_cons_of_mem s hu)) fs

/-- C9: the two endpoint-log fields are present together or absent
together in every record at every point of the run — created absent by
inventory, untouched by settings resolution, set together by the log
resolver — so the downloader's filename lookup can never raise for a
record admitted by the download loop's `endpoint_moid` presence check:
no run aborts with a `KeyError` on `endpoint_filename`. -/
theorem endpoint_fields_set_together (env : Env) (cwd : String) (fs : FS)
    (server : ServerRecord) (h : recOk server = true) :
    recOk (get_server_settings env server).1 = true ∧
    recOk (get_endpoint_logs env server).1 = true ∧
    (main_run env cwd fs).outcome
      ≠ some (PyError.keyError "endpoint_filename") := by
  refine ⟨?_, get_endpoint_logs_recOk env server h, ?_⟩
  · have hp := get_server_settings_endpoint_fields env server
    unfold recOk at h ⊢
    rw [hp.1, hp.2]
    exact h
  · cases hgl : get_server_list env with
  | mk ev1 olist =>
    cases olist with
    | none => simp [main_run, hgl]
    | some servers =>
      have hl2 : (get_server_list env).2 = some servers := by rw [hgl]
      cases hp1 : phase1Loop env servers with
      | mk ev2 res =>
        cases res with
        | error e =>
          have he : e = PyError.keyError "setting_moid" :=
            phase1Loop_error env servers e (by rw [hp1])
          subst he
          simp only [main_run, hgl, hp1]
          decide
        | ok servers1 =>
          have hallrec : ∀ s ∈ servers1, recOk s = true :=
            phase1Loop_recOk env servers
              (get_server_list_recOk env servers hl2) servers1
              (by rw [hp1])
          have hok := phase2Loop_ok env cwd servers1 hallrec fs
          cases hp2 : phase2Loop env cwd fs servers1 with
          | mk ev3 r2 =>
            obtain ⟨fs1, res2⟩ := r2
            have hres2 : res2 = .ok () := by
              rw [hp2] at hok
              exact hok
            subst hres2
            simp [main_run, hgl, hp1, hp2]

/-- Witness for `endpoint_fields_set_together` at a freshly created
record (both endpoint fields absent) and a concrete run. -/
theorem endpoint_fields_set_together_witness :
    recOk (get_server_settings envC1 { moid := "W" }).1 = true ∧
    recOk (get_endpoint_logs envC1 { moid := "W" }).1 = true ∧
    (main_run envC1 "/cwd" fs0).outcome
      ≠ some (PyError.keyError "endpoint_filename") :=
  endpoint_fields_set_together envC1 "/cwd" fs0 { moid := "W" } rfl

/-- Events allowed before the sleep: anything but a download or a sleep. -/
def phase1Safe (e : Event) : Bool := !e.isDownload && !e.isSleep

/-- `true` exactly for the trigger-phase work events: settings resolution,
the collection trigger, and log resolution. -/
def Event.isTriggerPhaseWork : Event → Bool
  | .apiGetServerSettingList _ => true
  | .apiUpdateServerSetting _ => true
  | .apiGetEndpointLogList _ => true
  | _ => false

/-- Events allowed after the sleep: anything but trigger-phase work
(settings resolution, trigger, log resolution) or a sleep. -/
def phase2Safe (e : Event) : Bool := !e.isTriggerPhaseWork && !e.isSleep

lemma phase1Safe_iff (e : Event) :
    phase1Safe e = true ↔ e.isDownload = false ∧ e.isSleep = false := by
  cases e <;> simp [phase1Safe, Event.isDownload, Event.isSleep]

lemma phase2Safe_iff (e : Event) :
    phase2Safe e = true ↔
      e.isTriggerPhaseWork = false ∧ e.isSleep = false := by
  cases e <;> simp [phase2Safe, Event.isTriggerPhaseWork, Event.isSleep]

lemma get_server_list_safe (env : Env) :
    ∀ e ∈ (get_server_list env).1,
      phase1Safe e = true ∧ phase2Safe e = true := by
  intro e he
  cases hp : env.physicalSummaryList with
  | ok l =>
    simp only [get_server_list, hp] at he
    simp at he
    subst he
    exact ⟨rfl, rfl⟩
  | error m =>
    simp only [get_server_list, hp] at he
    simp at he
    rcases he with rfl | rfl <;> exact ⟨rfl, rfl⟩

lemma get_server_settings_safe (env : Env) (s : ServerRecord) :
    ∀ e ∈ (get_server_settings env s).2, phase1Safe e = true := by
  intro e he
  cases henv : env.serverSettingList s.moid with
  | ok l =>
    cases l with
    | nil =>
      simp only [get_server_settings, henv] at he
      simp at he
      rcases he with rfl | rfl <;> rfl
    | cons r tl =>
      simp only [get_server_settings, henv] at he
      simp at he
      subst he
      rfl
  | error m =>
    simp only [get_server_settings, henv] at he
    simp at he
    rcases he with rfl | rfl <;> rfl

lemma set_collect_sel_safe (env : Env) (s : ServerRecord)
    (evs : List Event) (h : set_collect_sel env s = .ok evs) :
    ∀ e ∈ evs, phase1Safe e = true := by
  cases hs : s.setting_moid with
  | none => simp [set_collect_sel, hs] at h
  | some m =>
    cases hu : env.updateServerSetting m with
    | ok u =>
      simp only [set_collect_sel, hs, hu, Except.ok.injEq] at h
      subst h
      intro e he
      simp at he
      subst he
      rfl
    | error m2 =>
      simp only [set_collect_sel, hs, hu, Except.ok.injEq] at h
      subst h
      intro e he
      simp at he
      rcases he with rfl | rfl <;> rfl

lemma get_endpoint_logs_safe (env : Env) (s : ServerRecord) :
    ∀ e ∈ (get_endpoint_logs env s).2, phase1Safe e = true := by
  intro e he
  cases henv : env.endpointLogList s.moid with
  | ok l =>
    cases l with
    | nil =>
      simp only [get_endpoint_logs, henv] at he
      simp at he
      rcases he with rfl | rfl <;> rfl
    | cons r tl =>
      simp only [get_endpoint_logs, henv] at he
      simp at he
      subst he
      rfl
  | error m =>
    simp only [get_endpoint_logs, henv] at he
    simp at he
    rcases he with rfl | rfl <;> rfl

lemma phase1Loop_safe (env : Env) (servers : List ServerRecord) :
    ∀ e ∈ (phase1Loop env servers).1, phase1Safe e = true := by
  induction servers with
  | nil =>
    intro e he
    simp [phase1Loop] at he
  | cons s rest ih =>
    intro e he
    cases hcs : set_collect_sel env (get_server_settings env s).1 with
    | error e0 =>
      simp only [phase1Loop, hcs] at he
      exact get_server_settings_safe env s e he
    | ok ev2 =>
      simp only [phase1Loop, hcs] at he
      rcases List.mem_append.mp he with h123 | h4
      · rcases List.mem_append.mp h123 with h12 | h3
        · rcases List.mem_append.mp h12 with h1 | h2
          · exact get_server_settings_safe env s e h1
          · exact set_collect_sel_safe env _ ev2 hcs e h2
        · exact get_endpoint_logs_safe env _ e h3
      · exact ih e h4

lemma saveSelFile_safe (fs : FS) (fp fn : String) (body : List Nat) :
    ∀ e ∈ (saveSelFile fs fp fn body).2, phase2Safe e = true := by
  intro e he
  cases hdec : utf8Decode body <;>
    · simp only [saveSelFile, hdec] at he
      simp at he
      rcases he with rfl | rfl <;> rfl

lemma download_sel_safe (env : Env) (cwd : String) (fs : FS)
    (s : ServerRecord) (r : FS × List Event)
    (h : download_sel env cwd fs s = .ok r) :
    ∀ e ∈ r.2, phase2Safe e = true := by
  cases hm : s.endpoint_moid with
  | none => simp [download_sel, hm] at h
  | some x =>
    cases hf : s.endpoint_filename with
    | none => simp [download_sel, hm, hf] at h
    | some f =>
      cases hh : env.httpGet x with
      | error e0 =>
        simp only [download_sel, hm, hf, hh] at h
        cases h
        intro e he
        simp at he
        rcases he with rfl | rfl <;> rfl
      | ok body =>
        cases hc : fs.folders.contains (joinPath cwd "SEL_logs") with
        | true =>
          simp only [download_sel, hm, hf, hh, ensure_folder, hc,
            if_true] at h
          cases h
          intro e he
          simp only [List.nil_append] at he
          rcases List.mem_cons.mp he with rfl | he2
          · rfl
          · exact saveSelFile_safe fs _ f body e he2
        | false =>
          simp only [download_sel, hm, hf, hh, ensure_folder, hc,
            Bool.false_eq_true, if_false, makedirs] at h
          cases h
          intro e he
          simp only [List.cons_append, List.nil_append] at he
          rcases List.mem_cons.mp he with rfl | he2
          · rfl
          rcases List.mem_cons.mp he2 with rfl | he3
          · rfl
          rcases List.mem_cons.mp he3 with rfl | he4
          · rfl
          · exact saveSelFile_safe _ _ f body e he4

lemma phase2Loop_safe (env : Env) (cwd : String)
    (servers : List ServerRecord) :
    ∀ fs : FS, ∀ e ∈ (phase2Loop env cwd fs servers).1,
      phase2Safe e = true := by
  induction servers with
  | nil =>
    intro fs e he
    simp [phase2Loop] at he
  | cons s rest ih =>
    intro fs e he
    by_cases hm : s.endpoint_moid.isSome
    · simp only [phase2Loop, hm, if_true] at he
      cases hdl : download_sel env cwd fs s with
      | error e0 =>
        rw [hdl] at he
        simp at he
      | ok r =>
        rw [hdl] at he
        obtain ⟨fs1, evs⟩ := r
        dsimp only at he
        rcases List.mem_append.mp he with h1 | h2
        · exact download_sel_safe env cwd fs s (fs1, evs) hdl e h1
        · exact ih fs1 e h2
    · simp only [phase2Loop, hm, if_false, Bool.false_eq_true] at he
      exact ih fs e he

/-- C7: in every run, all trigger-phase work — settings resolution, the
collection trigger and log resolution, for every server — precedes the
single fixed 5-second sleep, and every download follows it: the trace
either splits as `t1 ++ sleep 5 :: t2` with no download (and no other
sleep) in `t1` and no trigger-phase work of any kind (and no other
sleep) in `t2`, or the run aborted during the trigger phase and contains
no download and no sleep at all. -/
theorem triggers_before_sleep_before_downloads (env : Env) (cwd : String)
    (fs : FS) :
    (∃ t1 t2, (main_run env cwd fs).trace = t1 ++ Event.sleep 5 :: t2 ∧
      (∀ e ∈ t1, e.isDownload = false ∧ e.isSleep = false) ∧
      (∀ e ∈ t2, e.isTriggerPhaseWork = false ∧ e.isSleep = false)) ∨
    (∀ e ∈ (main_run env cwd fs).trace,
      e.isDownload = false ∧ e.isSleep = false) := by
  have hev1 := get_server_list_safe env
  cases hgl : get_server_list env with
  | mk ev1 olist =>
    rw [hgl] at hev1
    cases olist with
    | none =>
      right
      simp only [main_run, hgl]
      intro e he
      rcases List.mem_append.mp he with h0 | h1
      · simp at h0
        subst h0
        exact ⟨rfl, rfl⟩
      · exact (phase1Safe_iff e).mp (hev1 e h1).1
    | some servers =>
      have hp1safe := phase1Loop_safe env servers
      cases hp1 : phase1Loop env servers with
      | mk ev2 res =>
        rw [hp1] at hp1safe
        cases res with
        | error e0 =>
          right
          simp only [main_run, hgl, hp1]
          intro e he
          rcases List.mem_append.mp he with h01 | h2
          · rcases List.mem_append.mp h01 with h0 | h1
            · simp at h0
              subst h0
              exact ⟨rfl, rfl⟩
            · exact (phase1Safe_iff e).mp (hev1 e h1).1
          · exact (phase1Safe_iff e).mp (hp1safe e h2)
        | ok servers1 =>
          left
          have hp2safe := phase2Loop_safe env cwd servers1 fs
          cases hp2 : phase2Loop env cwd fs servers1 with
          | mk ev3 r2 =>
            rw [hp2] at hp2safe
            obtain ⟨fs1, res2⟩ := r2
            have ht1 : ∀ e ∈ (([Event.printLine warningMsg] ++ ev1) ++ ev2)
                ++ [Event.printLine waitingMsg],
                e.isDownload = false ∧ e.isSleep = false := by
              intro e he
              rcases List.mem_append.mp he with h012 | hw
              · rcases List.mem_append.mp h012 with h01 | h2
                · rcases List.mem_append.mp h01 with h0 | h1
                  · simp at h0
                    subst h0
                    exact ⟨rfl, rfl⟩
                  · exact (phase1Safe_iff e).mp (hev1 e h1).1
                · exact (phase1Safe_iff e).mp (hp1safe e h2)
              · simp at hw
                subst hw
                exact ⟨rfl, rfl⟩
            cases res2 with
            | error e0 =>
              refine ⟨(([Event.printLine warningMsg] ++ ev1) ++ ev2)
                ++ [Event.printLine waitingMsg], ev3, ?_, ht1, ?_⟩
              · simp only [main_run, hgl, hp1, hp2]
                simp [List.append_assoc]
              · intro e he
                exact (phase2Safe_iff e).mp (hp2safe e he)
            | ok u =>
              refine ⟨(([Event.printLine warningMsg] ++ ev1) ++ ev2)
                ++ [Event.printLine waitingMsg],
                ev3 ++ [Event.printLine finishedMsg], ?_, ht1, ?_⟩
              · simp only [main_run, hgl, hp1, hp2]
                simp [List.append_assoc]
              · intro e he
                rcases List.mem_append.mp he with h3 | hfin
                · exact (phase2Safe_iff e).mp (hp2safe e h3)
                · simp at hfin
                  subst hfin
                  exact ⟨rfl, rfl⟩
